import Mathlib

/-!
Verification of the StellarStream token-streaming contract
(src/contracts/src/lib.rs, src/contracts/src/types.rs).

The contract escrows a token amount from a sender and releases it linearly
over time to a receiver, with a cliff, role-based access control, an
optional protocol fee, a pause switch and batch creation.  Addresses are
modelled as natural numbers; the contract's own address is the constant
contractAddress.  Soroban's `require_auth` is modelled by an explicit list
`auths` of addresses that signed the invocation.  Each state-changing
operation returns `Except Err (...)`: an error value models a Rust panic,
which aborts the call and leaves all persisted state unchanged.
-/

namespace StellarStream

/-- Roles, from types.rs `Role`. -/
inductive Role where
  | Admin
  | Pauser
  | TreasuryManager
deriving DecidableEq, Repr

/-- A stream entity, from types.rs `Stream`. -/
structure Stream where
  sender : Nat
  receiver : Nat
  token : Nat
  amount : Int
  start_time : Nat
  cliff_time : Nat
  end_time : Nat
  withdrawn_amount : Int
deriving DecidableEq, Repr

/-- A batch-creation request, from types.rs `StreamRequest`. -/
structure StreamRequest where
  receiver : Nat
  amount : Int
  start_time : Nat
  cliff_time : Nat
  end_time : Nat
deriving DecidableEq, Repr

/-- The distinct panic messages of lib.rs, as an error type. -/
inductive Err where
  | notAuthorized
  | onlyAdmin
  | onlyTreasuryManager
  | onlyPauser
  | feeTooHigh
  | paused
  | endNotAfterStart
  | badCliff
  | nonPositiveAmount
  | treasuryNotSet
  | streamNotFound
  | notReceiver
  | nothingWithdrawable
  | alreadyCompleted
  | reentrant
deriving DecidableEq, Repr

/-- A call to the external token-transfer primitive `transfer(from, to, amount)`. -/
structure Transfer where
  src : Nat
  dst : Nat
  amount : Int
deriving DecidableEq, Repr

/-- The contract's own address (`env.current_contract_address()`). -/
def contractAddress : Nat := 0

/-- Lookup in persistent storage modelled as an association list. -/
def getEntry : List (Nat × Stream) → Nat → Option Stream
  | [], _ => none
  | (k, v) :: rest, key => if key = k then some v else getEntry rest key

/-- Insert-or-overwrite in persistent storage (`storage().set`). -/
def setEntry : List (Nat × Stream) → Nat → Stream → List (Nat × Stream)
  | [], key, v => [(key, v)]
  | (k, w) :: rest, key, v =>
      if key = k then (key, v) :: rest else (k, w) :: setEntry rest key v

/-- Deletion from persistent storage (`storage().remove`). -/
def removeEntry : List (Nat × Stream) → Nat → List (Nat × Stream)
  | [], _ => []
  | (k, w) :: rest, key =>
      if key = k then removeEntry rest key else (k, w) :: removeEntry rest key

/-- The contract's storage, from types.rs `DataKey`: streams under
`DataKey::Stream(id)` in persistent storage, and the instance entries
`StreamId`, `Admin`, `FeeBps`, `Treasury`, `IsPaused` and the role map
`Role(addr, role)` (a pair is in `roles` iff the grant is stored as true). -/
structure State where
  streams : List (Nat × Stream)
  streamId : Nat
  admin : Option Nat
  roles : List (Nat × Role)
  feeBps : Option Nat
  treasury : Option Nat
  isPaused : Option Bool
deriving DecidableEq, Repr

/-- Modelled from the spec: lib.rs declares `pub mod math;` and calls
`math::calculate_unlocked(amount, start_time, cliff_time, end_time, now)`,
but math.rs itself is not under src/.  Per the spec's VestingMath section:
`now < cliff` gives 0; `now >= end` gives the full total; otherwise the
linear interpolation `total * (now - start) / (end - start)` with integer
truncation, division performed last.  On the spec's stated domain
(`start <= cliff`, so the linear branch has `now >= start`) all operands
are non-negative and Lean's integer division agrees with Rust's
truncating i128 division. -/
def calculate_unlocked (total : Int) (start_time cliff_time end_time now : Nat) : Int :=
  if now < cliff_time then 0
  else if end_time ≤ now then total
  else total * ((now : Int) - (start_time : Int)) / ((end_time : Int) - (start_time : Int))

/-- Membership test of the role map (`has_role` in lib.rs, `unwrap_or(false)`). -/
def has_role (s : State) (account : Nat) (role : Role) : Bool :=
  (account, role) ∈ s.roles

/-- Public read-only role query (`check_role` in lib.rs). -/
def check_role (s : State) (account : Nat) (role : Role) : Bool :=
  has_role s account role

/-- Grant helper (`grant_role_internal`): store true under the role key. -/
def grant_role_internal (s : State) (account : Nat) (role : Role) : State :=
  if (account, role) ∈ s.roles then s else { s with roles := (account, role) :: s.roles }

/-- Revoke helper (`revoke_role_internal`): remove the role key. -/
def revoke_role_internal (s : State) (account : Nat) (role : Role) : State :=
  { s with roles := s.roles.filter (fun p => ¬(p = (account, role))) }

/-- The `initialize` entry point of lib.rs: authenticate the admin, grant all
three roles, set the legacy admin and clear the pause flag.  There is no
once-only guard in the source. -/
def initContract (s : State) (auths : List Nat) (admin : Nat) : Except Err State :=
  if admin ∈ auths then
    let s1 := grant_role_internal s admin Role.Admin
    let s2 := grant_role_internal s1 admin Role.Pauser
    let s3 := grant_role_internal s2 admin Role.TreasuryManager
    .ok { s3 with admin := some admin, isPaused := some false }
  else .error .notAuthorized

/-- The `grant_role` entry point: authenticate, require the Admin role, grant. -/
def grant_role (s : State) (auths : List Nat) (admin account : Nat) (role : Role) :
    Except Err State :=
  if admin ∈ auths then
    if has_role s admin Role.Admin then .ok (grant_role_internal s account role)
    else .error .onlyAdmin
  else .error .notAuthorized

/-- The `revoke_role` entry point: authenticate, require the Admin role, revoke. -/
def revoke_role (s : State) (auths : List Nat) (admin account : Nat) (role : Role) :
    Except Err State :=
  if admin ∈ auths then
    if has_role s admin Role.Admin then .ok (revoke_role_internal s account role)
    else .error .onlyAdmin
  else .error .notAuthorized

/-- The `initialize_fee` entry point: authenticate, require TreasuryManager,
reject fee_bps above 1000, store fee and treasury. -/
def init_fee (s : State) (auths : List Nat) (admin : Nat) (fee_bps : Nat) (treasury : Nat) :
    Except Err State :=
  if admin ∈ auths then
    if has_role s admin Role.TreasuryManager then
      if 1000 < fee_bps then .error .feeTooHigh
      else .ok { s with feeBps := some fee_bps, treasury := some treasury }
    else .error .onlyTreasuryManager
  else .error .notAuthorized

/-- The `update_fee` entry point. -/
def update_fee (s : State) (auths : List Nat) (manager : Nat) (fee_bps : Nat) :
    Except Err State :=
  if manager ∈ auths then
    if has_role s manager Role.TreasuryManager then
      if 1000 < fee_bps then .error .feeTooHigh
      else .ok { s with feeBps := some fee_bps }
    else .error .onlyTreasuryManager
  else .error .notAuthorized

/-- The `update_treasury` entry point. -/
def update_treasury (s : State) (auths : List Nat) (manager : Nat) (treasury : Nat) :
    Except Err State :=
  if manager ∈ auths then
    if has_role s manager Role.TreasuryManager then
      .ok { s with treasury := some treasury }
    else .error .onlyTreasuryManager
  else .error .notAuthorized

/-- The `set_pause` entry point: authenticate, require Pauser, store the flag. -/
def set_pause (s : State) (auths : List Nat) (pauser : Nat) (paused : Bool) :
    Except Err State :=
  if pauser ∈ auths then
    if has_role s pauser Role.Pauser then .ok { s with isPaused := some paused }
    else .error .onlyPauser
  else .error .notAuthorized

/-- The pause gate `check_not_paused` (`unwrap_or(false)` on the stored flag). -/
def pausedFlag (s : State) : Bool :=
  s.isPaused.getD false

/-- The `create_stream` entry point of lib.rs, in source order: pause gate,
authentication, time and amount validation, fee split
(`fee_amount = amount * fee_bps / 10000`, principal to escrow, fee to the
treasury only when positive), stream-id allocation and persistence.
Returns the updated state, the external transfers issued, and the new id. -/
def create_stream (s : State) (auths : List Nat) (sender receiver token : Nat)
    (amount : Int) (start_time cliff_time end_time : Nat) :
    Except Err (State × List Transfer × Nat) :=
  if pausedFlag s then .error .paused
  else if sender ∈ auths then
    if end_time ≤ start_time then .error .endNotAfterStart
    else if cliff_time < start_time ∨ end_time ≤ cliff_time then .error .badCliff
    else if amount ≤ 0 then .error .nonPositiveAmount
    else
      let fee_bps : Nat := s.feeBps.getD 0
      let fee_amount : Int := amount * (fee_bps : Int) / 10000
      let principal : Int := amount - fee_amount
      let stream_id := s.streamId + 1
      let stream : Stream :=
        ⟨sender, receiver, token, principal, start_time, cliff_time, end_time, 0⟩
      let s1 : State :=
        { s with streamId := stream_id, streams := setEntry s.streams stream_id stream }
      if 0 < fee_amount then
        match s.treasury with
        | none => .error .treasuryNotSet
        | some t =>
            .ok (s1, [⟨sender, contractAddress, principal⟩, ⟨sender, t, fee_amount⟩],
                 stream_id)
      else .ok (s1, [⟨sender, contractAddress, principal⟩], stream_id)
  else .error .notAuthorized

/-- The validation loop of `create_batch_streams`: check `end > start` and
`amount > 0` for every request (in list order, failing at the first bad one,
before any transfer happens) and accumulate the total amount.  Note the loop
does not constrain `cliff_time`. -/
def validateRequests : List StreamRequest → Except Err Int
  | [] => .ok 0
  | r :: rest =>
      if r.end_time ≤ r.start_time then .error .endNotAfterStart
      else if r.amount ≤ 0 then .error .nonPositiveAmount
      else match validateRequests rest with
           | .ok t => .ok (r.amount + t)
           | .error e => .error e

/-- The stream persisted for one batch request: `withdrawn_amount = 0`,
`cliff_time` taken from the request, amount not reduced by any fee. -/
def streamOfRequest (sender token : Nat) (r : StreamRequest) : Stream :=
  ⟨sender, r.receiver, token, r.amount, r.start_time, r.cliff_time, r.end_time, 0⟩

/-- The persistence loop of `create_batch_streams`: allocate sequential ids
starting above `nid` and store one stream per request, with
`withdrawn_amount = 0` and `cliff_time` taken from the request.  Returns the
final storage, the final id-counter value and the ids in order. -/
def insertStreams (sender token : Nat) (streams : List (Nat × Stream)) (nid : Nat) :
    List StreamRequest → List (Nat × Stream) × Nat × List Nat
  | [] => (streams, nid, [])
  | r :: rest =>
      let res := insertStreams sender token
        (setEntry streams (nid + 1) (streamOfRequest sender token r)) (nid + 1) rest
      (res.1, res.2.1, (nid + 1) :: res.2.2)

/-- The `create_batch_streams` entry point of lib.rs: authenticate the sender
once, validate every request before any transfer, perform one aggregate
transfer of the summed amounts to escrow, then persist the streams under
sequential ids.  No pause gate and no fee split on this path. -/
def create_batch_streams (s : State) (auths : List Nat) (sender token : Nat)
    (requests : List StreamRequest) :
    Except Err (State × List Transfer × List Nat) :=
  if sender ∈ auths then
    match validateRequests requests with
    | .error e => .error e
    | .ok total =>
      let res := insertStreams sender token s.streams s.streamId requests
      .ok ({ s with streams := res.1, streamId := res.2.1 },
           [⟨sender, contractAddress, total⟩], res.2.2)
  else .error .notAuthorized

/-- The `withdraw` entry point of lib.rs, in source order: pause gate,
authentication, stream lookup, receiver check, unlocked computation,
positivity check on the withdrawable amount, transfer from escrow to the
receiver, and the `withdrawn_amount` update. -/
def withdraw (s : State) (auths : List Nat) (now : Nat) (stream_id : Nat)
    (receiver : Nat) : Except Err (State × List Transfer × Int) :=
  if pausedFlag s then .error .paused
  else if receiver ∈ auths then
    match getEntry s.streams stream_id with
    | none => .error .streamNotFound
    | some stream =>
      if ¬(receiver = stream.receiver) then .error .notReceiver
      else
        let total_unlocked := calculate_unlocked stream.amount stream.start_time
          stream.cliff_time stream.end_time now
        let withdrawable := total_unlocked - stream.withdrawn_amount
        if withdrawable ≤ 0 then .error .nothingWithdrawable
        else
          let stream1 : Stream :=
            { stream with withdrawn_amount := stream.withdrawn_amount + withdrawable }
          .ok ({ s with streams := setEntry s.streams stream_id stream1 },
               [⟨contractAddress, receiver, withdrawable⟩], withdrawable)
  else .error .notAuthorized

/-- The `cancel_stream` entry point of lib.rs, in source order: pause gate,
stream lookup, sender authentication, completion check, split of the escrowed
balance (`unlocked - withdrawn` to the receiver and `amount - unlocked` back
to the sender, each leg only when positive), and deletion of the stream. -/
def cancel_stream (s : State) (auths : List Nat) (now : Nat) (stream_id : Nat) :
    Except Err (State × List Transfer × Unit) :=
  if pausedFlag s then .error .paused
  else
    match getEntry s.streams stream_id with
    | none => .error .streamNotFound
    | some stream =>
      if stream.sender ∈ auths then
        if stream.end_time ≤ now then .error .alreadyCompleted
        else
          let total_unlocked := calculate_unlocked stream.amount stream.start_time
            stream.cliff_time stream.end_time now
          let withdrawable_to_receiver := total_unlocked - stream.withdrawn_amount
          let refund_to_sender := stream.amount - total_unlocked
          let legs :=
            (if 0 < withdrawable_to_receiver then
               [(⟨contractAddress, stream.receiver, withdrawable_to_receiver⟩ : Transfer)]
             else []) ++
            (if 0 < refund_to_sender then
               [(⟨contractAddress, stream.sender, refund_to_sender⟩ : Transfer)]
             else [])
          .ok ({ s with streams := removeEntry s.streams stream_id }, legs, ())
      else .error .notAuthorized

/-- The `transfer_receiver` entry point of lib.rs: look the stream up,
authenticate its current receiver, and update the receiver field in place. -/
def transfer_receiver (s : State) (auths : List Nat) (stream_id new_receiver : Nat) :
    Except Err State :=
  match getEntry s.streams stream_id with
  | none => .error .streamNotFound
  | some stream =>
      if stream.receiver ∈ auths then
        let stream1 : Stream := { stream with receiver := new_receiver }
        .ok { s with streams := setEntry s.streams stream_id stream1 }
      else .error .notAuthorized

/-- Read-only stream lookup (the `get_stream` query of the spec's interface
table; fails with not-found when the entity does not exist). -/
def get_stream (s : State) (stream_id : Nat) : Except Err Stream :=
  match getEntry s.streams stream_id with
  | none => .error .streamNotFound
  | some stream => .ok stream

/-- The per-stream invariants that hold on every path: `start_time < end_time`,
`amount > 0`, `0 <= withdrawn_amount <= amount`.  The cliff bound
`start_time <= cliff_time < end_time` is deliberately not part of this
predicate: the batch-creation path does not enforce it. -/
def StreamInv (st : Stream) : Prop :=
  st.start_time < st.end_time ∧ 0 < st.amount ∧
    0 ≤ st.withdrawn_amount ∧ st.withdrawn_amount ≤ st.amount

/-- The state-level invariant: every live stream satisfies StreamInv and the
stored fee never exceeds 1000 basis points (enforced by the fee setters). -/
def StateInv (s : State) : Prop :=
  (∀ p ∈ s.streams, StreamInv p.2) ∧ s.feeBps.getD 0 ≤ 1000

/-- One successful public operation of the contract, observed together with
the list of stream ids it issued (empty for non-creating operations). -/
inductive Step : State → List Nat → State → Prop where
  | doInit {s auths a s1} :
      initContract s auths a = .ok s1 → Step s [] s1
  | doGrant {s auths a b r s1} :
      grant_role s auths a b r = .ok s1 → Step s [] s1
  | doRevoke {s auths a b r s1} :
      revoke_role s auths a b r = .ok s1 → Step s [] s1
  | doInitFee {s auths a bps t s1} :
      init_fee s auths a bps t = .ok s1 → Step s [] s1
  | doUpdateFee {s auths a bps s1} :
      update_fee s auths a bps = .ok s1 → Step s [] s1
  | doUpdateTreasury {s auths a t s1} :
      update_treasury s auths a t = .ok s1 → Step s [] s1
  | doSetPause {s auths a b s1} :
      set_pause s auths a b = .ok s1 → Step s [] s1
  | doCreate {s auths se re tok amt t1 t2 t3 s1 tr id} :
      create_stream s auths se re tok amt t1 t2 t3 = .ok (s1, tr, id) → Step s [id] s1
  | doCreateBatch {s auths se tok rs s1 tr ids} :
      create_batch_streams s auths se tok rs = .ok (s1, tr, ids) → Step s ids s1
  | doWithdraw {s auths now id re s1 tr w} :
      withdraw s auths now id re = .ok (s1, tr, w) → Step s [] s1
  | doCancel {s auths now id s1 tr u} :
      cancel_stream s auths now id = .ok (s1, tr, u) → Step s [] s1
  | doTransferReceiver {s auths id nr s1} :
      transfer_receiver s auths id nr = .ok s1 → Step s [] s1

/-- A run of successful public operations, recording the ids issued by each. -/
inductive Trace : State → List (List Nat) → State → Prop where
  | nil {s} : Trace s [] s
  | cons {s ids s1 rest s2} :
      Step s ids s1 → Trace s1 rest s2 → Trace s (ids :: rest) s2

/-- Modelled from the spec: the repository's `StreamingContract` variant keeps
a single-flight reentrancy lock in transient storage under
`DataKey::ReentrancyLock`; its source is not under src/ (only its tests in
src/contracts/src/test.rs are).  The guarded state is the contract state of
lib.rs extended with that call-scoped lock. -/
structure GState where
  base : State
  lock : Bool
deriving DecidableEq, Repr

/-- Modelled from the spec: the guarded `withdraw` of the reentrancy-guard
variant.  On entry the lock is read; if already set the call fails fatally
with a reentrancy error and no side effects; otherwise the lock is set, the
withdraw body runs (its external transfer is where a nested call could be
attempted against the locked intermediate state), and the lock is cleared on
every exit path — after a successful body as well as on an early failure
exit, whose storage effects are discarded by abort semantics. -/
def guarded_withdraw (g : GState) (auths : List Nat) (now : Nat) (stream_id : Nat)
    (receiver : Nat) : GState × Except Err (List Transfer × Int) :=
  if g.lock then (g, .error .reentrant)
  else
    match withdraw g.base auths now stream_id receiver with
    | .ok (b, tr, w) => (⟨b, false⟩, .ok (tr, w))
    | .error e => (⟨g.base, false⟩, .error e)

/-- Modelled from the spec: the guarded `cancel_stream` of the
reentrancy-guard variant, with the same lock protocol as guarded_withdraw. -/
def guarded_cancel (g : GState) (auths : List Nat) (now : Nat) (stream_id : Nat) :
    GState × Except Err (List Transfer) :=
  if g.lock then (g, .error .reentrant)
  else
    match cancel_stream g.base auths now stream_id with
    | .ok (b, tr, _) => (⟨b, false⟩, .ok tr)
    | .error e => (⟨g.base, false⟩, .error e)

end StellarStream

namespace StellarStream

theorem getEntry_setEntry_self (l : List (Nat × Stream)) (k : Nat) (v : Stream) :
    getEntry (setEntry l k v) k = some v := by
  induction l with
  | nil => simp [setEntry, getEntry]
  | cons p rest ih =>
      obtain ⟨a, b⟩ := p
      by_cases h : k = a
      · simp [setEntry, getEntry, h]
      · simp [setEntry, getEntry, h, ih]

theorem getEntry_setEntry_ne (l : List (Nat × Stream)) (k j : Nat) (v : Stream)
    (h : j ≠ k) : getEntry (setEntry l k v) j = getEntry l j := by
  induction l with
  | nil => simp [setEntry, getEntry, h]
  | cons p rest ih =>
      obtain ⟨a, b⟩ := p
      by_cases hk : k = a
      · subst hk
        simp [setEntry, getEntry, h]
      · by_cases hj : j = a
        · simp [setEntry, getEntry, hk, hj]
        · simp [setEntry, getEntry, hk, hj, ih]

theorem getEntry_removeEntry_self (l : List (Nat × Stream)) (k : Nat) :
    getEntry (removeEntry l k) k = none := by
  induction l with
  | nil => simp [removeEntry, getEntry]
  | cons p rest ih =>
      obtain ⟨a, b⟩ := p
      by_cases h : k = a
      · subst h
        rw [removeEntry, if_pos rfl]
        exact ih
      · rw [removeEntry, if_neg h, getEntry, if_neg h]
        exact ih

theorem mem_setEntry (l : List (Nat × Stream)) (k : Nat) (v : Stream)
    (p : Nat × Stream) (hp : p ∈ setEntry l k v) : p = (k, v) ∨ p ∈ l := by
  induction l with
  | nil => simpa [setEntry] using hp
  | cons q rest ih =>
      obtain ⟨a, b⟩ := q
      by_cases h : k = a
      · rw [setEntry, if_pos h] at hp
        rcases List.mem_cons.mp hp with h1 | h1
        · exact Or.inl h1
        · exact Or.inr (List.mem_cons_of_mem _ h1)
      · rw [setEntry, if_neg h] at hp
        rcases List.mem_cons.mp hp with h1 | h1
        · exact Or.inr (h1 ▸ List.mem_cons_self _ _)
        · rcases ih h1 with h2 | h2
          · exact Or.inl h2
          · exact Or.inr (List.mem_cons_of_mem _ h2)

theorem mem_removeEntry (l : List (Nat × Stream)) (k : Nat)
    (p : Nat × Stream) (hp : p ∈ removeEntry l k) : p ∈ l := by
  induction l with
  | nil => simp [removeEntry] at hp
  | cons q rest ih =>
      obtain ⟨a, b⟩ := q
      by_cases h : k = a
      · rw [removeEntry, if_pos h] at hp
        exact List.mem_cons_of_mem _ (ih hp)
      · rw [removeEntry, if_neg h] at hp
        rcases List.mem_cons.mp hp with h1 | h1
        · exact h1 ▸ List.mem_cons_self _ _
        · exact List.mem_cons_of_mem _ (ih h1)

theorem getEntry_mem (l : List (Nat × Stream)) (k : Nat) (v : Stream)
    (h : getEntry l k = some v) : (k, v) ∈ l := by
  induction l with
  | nil => simp [getEntry] at h
  | cons q rest ih =>
      obtain ⟨a, b⟩ := q
      by_cases hk : k = a
      · rw [getEntry, if_pos hk] at h
        subst hk
        exact (Option.some.injEq _ _ ▸ h) ▸ List.mem_cons_self _ _
      · rw [getEntry, if_neg hk] at h
        exact List.mem_cons_of_mem _ (ih h)

theorem unlocked_nonneg (total : Int) (start_time cliff_time end_time now : Nat)
    (htot : 0 ≤ total) (hsc : start_time ≤ cliff_time) :
    0 ≤ calculate_unlocked total start_time cliff_time end_time now := by
  unfold calculate_unlocked
  split
  · exact le_refl 0
  next h1 =>
    split
    · exact htot
    next h2 =>
      apply Int.ediv_nonneg
      · exact mul_nonneg htot (by omega)
      · omega

theorem unlocked_le_total (total : Int) (start_time cliff_time end_time now : Nat)
    (htot : 0 ≤ total) (hse : start_time < end_time) :
    calculate_unlocked total start_time cliff_time end_time now ≤ total := by
  unfold calculate_unlocked
  split
  · exact htot
  next h1 =>
    split
    · exact le_refl total
    next h2 =>
      have hd : (0 : Int) < (end_time : Int) - (start_time : Int) := by omega
      calc total * ((now : Int) - (start_time : Int)) / ((end_time : Int) - (start_time : Int))
            ≤ total * ((end_time : Int) - (start_time : Int)) / ((end_time : Int) - (start_time : Int)) :=
              Int.ediv_le_ediv hd (mul_le_mul_of_nonneg_left (by omega) htot)
        _ = total := Int.mul_ediv_cancel total (ne_of_gt hd)

theorem unlocked_mono (total : Int) (start_time cliff_time end_time : Nat)
    (htot : 0 ≤ total) (hsc : start_time ≤ cliff_time) (n1 n2 : Nat) (h12 : n1 ≤ n2) :
    calculate_unlocked total start_time cliff_time end_time n1 ≤
      calculate_unlocked total start_time cliff_time end_time n2 := by
  by_cases hc1 : n1 < cliff_time
  · rw [calculate_unlocked, if_pos hc1]
    exact unlocked_nonneg total start_time cliff_time end_time n2 htot hsc
  · by_cases he1 : end_time ≤ n1
    · rw [calculate_unlocked, if_neg hc1, if_pos he1,
          calculate_unlocked, if_neg (by omega : ¬ n2 < cliff_time), if_pos (by omega)]
    · rw [calculate_unlocked, if_neg hc1, if_neg he1]
      by_cases he2 : end_time ≤ n2
      · rw [calculate_unlocked, if_neg (by omega : ¬ n2 < cliff_time), if_pos he2]
        have := unlocked_le_total total start_time cliff_time end_time n1 htot (by omega)
        rw [calculate_unlocked, if_neg hc1, if_neg he1] at this
        exact this
      · rw [calculate_unlocked, if_neg (by omega : ¬ n2 < cliff_time), if_neg he2]
        exact Int.ediv_le_ediv (by omega) (mul_le_mul_of_nonneg_left (by omega) htot)

theorem fee_nonneg (amount : Int) (bps : Nat) (h : 0 ≤ amount) :
    0 ≤ amount * (bps : Int) / 10000 :=
  Int.ediv_nonneg (mul_nonneg h (by positivity)) (by norm_num)

theorem fee_lt_amount (amount : Int) (bps : Nat) (ha : 0 < amount) (hb : bps ≤ 1000) :
    amount * (bps : Int) / 10000 < amount := by
  rw [Int.ediv_lt_iff_lt_mul (by norm_num)]
  have hb' : (bps : Int) ≤ 1000 := by exact_mod_cast hb
  nlinarith

end StellarStream

namespace StellarStream

theorem validateRequests_ok_valid (rs : List StreamRequest) (t : Int)
    (h : validateRequests rs = .ok t) :
    ∀ r ∈ rs, r.start_time < r.end_time ∧ 0 < r.amount := by
  induction rs generalizing t with
  | nil => intro r hr; simp at hr
  | cons q rest ih =>
      intro r hr
      rw [validateRequests] at h
      by_cases h1 : q.end_time ≤ q.start_time
      · rw [if_pos h1] at h; exact absurd h (by simp)
      · rw [if_neg h1] at h
        by_cases h2 : q.amount ≤ 0
        · rw [if_pos h2] at h; exact absurd h (by simp)
        · rw [if_neg h2] at h
          cases hv : validateRequests rest with
          | error e => rw [hv] at h; exact absurd h (by simp)
          | ok t2 =>
              rcases List.mem_cons.mp hr with hq | hq
              · subst hq; exact ⟨by omega, by omega⟩
              · exact ih t2 hv r hq

theorem validateRequests_ok_of_valid (rs : List StreamRequest)
    (h : ∀ r ∈ rs, r.start_time < r.end_time ∧ 0 < r.amount) :
    validateRequests rs = .ok ((rs.map StreamRequest.amount).sum) := by
  induction rs with
  | nil => rfl
  | cons q rest ih =>
      obtain ⟨hq1, hq2⟩ := h q (List.mem_cons_self _ _)
      rw [validateRequests, if_neg (by omega), if_neg (by omega),
          ih (fun r hr => h r (List.mem_cons_of_mem _ hr))]
      simp

theorem insertStreams_counter (sender token : Nat) (l : List (Nat × Stream)) (nid : Nat)
    (rs : List StreamRequest) :
    (insertStreams sender token l nid rs).2.1 = nid + rs.length := by
  induction rs generalizing l nid with
  | nil => simp [insertStreams]
  | cons q rest ih =>
      rw [insertStreams]
      simp only [List.length_cons]
      rw [ih]
      omega

theorem insertStreams_ids (sender token : Nat) (l : List (Nat × Stream)) (nid : Nat)
    (rs : List StreamRequest) :
    (insertStreams sender token l nid rs).2.2 = List.range' (nid + 1) rs.length := by
  induction rs generalizing l nid with
  | nil => simp [insertStreams]
  | cons q rest ih =>
      rw [insertStreams]
      simp only [List.length_cons, List.range'_succ]
      rw [ih]

theorem insertStreams_getEntry_le (sender token : Nat) (l : List (Nat × Stream))
    (nid : Nat) (rs : List StreamRequest) (key : Nat) (h : key ≤ nid) :
    getEntry (insertStreams sender token l nid rs).1 key = getEntry l key := by
  induction rs generalizing l nid with
  | nil => rfl
  | cons q rest ih =>
      rw [insertStreams]
      rw [ih (setEntry l (nid + 1) (streamOfRequest sender token q)) (nid + 1) (by omega)]
      exact getEntry_setEntry_ne l (nid + 1) key (streamOfRequest sender token q) (by omega)

theorem insertStreams_getEntry (sender token : Nat) (l : List (Nat × Stream)) (nid : Nat)
    (rs : List StreamRequest) (i : Nat) (hi : i < rs.length) :
    getEntry (insertStreams sender token l nid rs).1 (nid + i + 1) =
      some (streamOfRequest sender token (rs.get ⟨i, hi⟩)) := by
  induction rs generalizing l nid i with
  | nil => simp at hi
  | cons q rest ih =>
      cases i with
      | zero =>
          rw [insertStreams]
          have := insertStreams_getEntry_le sender token
            (setEntry l (nid + 1) (streamOfRequest sender token q)) (nid + 1) rest
            (nid + 0 + 1) (by omega)
          rw [this]
          simpa using getEntry_setEntry_self l (nid + 1) (streamOfRequest sender token q)
      | succ j =>
          rw [insertStreams]
          have hj : j < rest.length := by simpa using hi
          have := ih (setEntry l (nid + 1) (streamOfRequest sender token q)) (nid + 1) j hj
          have harith : nid + 1 + j + 1 = nid + (j + 1) + 1 := by omega
          rw [harith] at this
          rw [this]
          rfl

theorem mem_insertStreams (sender token : Nat) (l : List (Nat × Stream)) (nid : Nat)
    (rs : List StreamRequest) (p : Nat × Stream)
    (hp : p ∈ (insertStreams sender token l nid rs).1) :
    p ∈ l ∨ ∃ r ∈ rs, p.2 = streamOfRequest sender token r := by
  induction rs generalizing l nid with
  | nil => exact Or.inl hp
  | cons q rest ih =>
      rw [insertStreams] at hp
      rcases ih (setEntry l (nid + 1) (streamOfRequest sender token q)) (nid + 1) hp with
        h1 | ⟨r, hr, hr2⟩
      · rcases mem_setEntry l (nid + 1) (streamOfRequest sender token q) p h1 with h2 | h2
        · exact Or.inr ⟨q, List.mem_cons_self _ _, by rw [h2]⟩
        · exact Or.inl h2
      · exact Or.inr ⟨r, List.mem_cons_of_mem _ hr, hr2⟩

end StellarStream

namespace StellarStream

theorem initContract_ok_frame (s : State) (auths : List Nat) (a : Nat) (s1 : State)
    (h : initContract s auths a = .ok s1) :
    s1.streams = s.streams ∧ s1.streamId = s.streamId ∧ s1.feeBps = s.feeBps := by
  unfold initContract at h
  split_ifs at h with h1
  · simp only [Except.ok.injEq] at h
    subst h
    simp only [grant_role_internal]
    split <;> split <;> split <;> exact ⟨rfl, rfl, rfl⟩

theorem grant_role_ok_frame (s : State) (auths : List Nat) (a b : Nat) (r : Role)
    (s1 : State) (h : grant_role s auths a b r = .ok s1) :
    s1.streams = s.streams ∧ s1.streamId = s.streamId ∧ s1.feeBps = s.feeBps := by
  unfold grant_role at h
  split_ifs at h with h1 h2
  · simp only [Except.ok.injEq] at h
    subst h
    simp only [grant_role_internal]
    split <;> exact ⟨rfl, rfl, rfl⟩

theorem revoke_role_ok_frame (s : State) (auths : List Nat) (a b : Nat) (r : Role)
    (s1 : State) (h : revoke_role s auths a b r = .ok s1) :
    s1.streams = s.streams ∧ s1.streamId = s.streamId ∧ s1.feeBps = s.feeBps := by
  unfold revoke_role at h
  split_ifs at h with h1 h2
  · simp only [Except.ok.injEq] at h
    subst h
    exact ⟨rfl, rfl, rfl⟩

theorem update_treasury_ok_frame (s : State) (auths : List Nat) (a t : Nat)
    (s1 : State) (h : update_treasury s auths a t = .ok s1) :
    s1.streams = s.streams ∧ s1.streamId = s.streamId ∧ s1.feeBps = s.feeBps := by
  unfold update_treasury at h
  split_ifs at h with h1 h2
  · simp only [Except.ok.injEq] at h
    subst h
    exact ⟨rfl, rfl, rfl⟩

theorem set_pause_ok_frame (s : State) (auths : List Nat) (a : Nat) (b : Bool)
    (s1 : State) (h : set_pause s auths a b = .ok s1) :
    s1.streams = s.streams ∧ s1.streamId = s.streamId ∧ s1.feeBps = s.feeBps := by
  unfold set_pause at h
  split_ifs at h with h1 h2
  · simp only [Except.ok.injEq] at h
    subst h
    exact ⟨rfl, rfl, rfl⟩

theorem init_fee_ok_frame (s : State) (auths : List Nat) (a bps t : Nat)
    (s1 : State) (h : init_fee s auths a bps t = .ok s1) :
    s1.streams = s.streams ∧ s1.streamId = s.streamId ∧ s1.feeBps.getD 0 ≤ 1000 := by
  unfold init_fee at h
  split_ifs at h with h1 h2 h3
  · simp only [Except.ok.injEq] at h
    subst h
    exact ⟨rfl, rfl, by simpa using by omega⟩

theorem update_fee_ok_frame (s : State) (auths : List Nat) (a bps : Nat)
    (s1 : State) (h : update_fee s auths a bps = .ok s1) :
    s1.streams = s.streams ∧ s1.streamId = s.streamId ∧ s1.feeBps.getD 0 ≤ 1000 := by
  unfold update_fee at h
  split_ifs at h with h1 h2 h3
  · simp only [Except.ok.injEq] at h
    subst h
    exact ⟨rfl, rfl, by simpa using by omega⟩

theorem create_stream_ok_inv (s : State) (auths : List Nat) (se re tok : Nat)
    (amt : Int) (t1 t2 t3 : Nat) (s1 : State) (tr : List Transfer) (id : Nat)
    (h : create_stream s auths se re tok amt t1 t2 t3 = .ok (s1, tr, id)) :
    id = s.streamId + 1 ∧ s1.streamId = s.streamId + 1 ∧ s1.feeBps = s.feeBps ∧
      t1 < t3 ∧ t1 ≤ t2 ∧ t2 < t3 ∧ 0 < amt ∧
      s1.streams = setEntry s.streams (s.streamId + 1)
        ⟨se, re, tok, amt - amt * ((s.feeBps.getD 0 : Nat) : Int) / 10000, t1, t2, t3, 0⟩ := by
  rw [create_stream] at h
  split_ifs at h with h1 h2 h3 h4 h5
  simp only [] at h
  split_ifs at h with h6
  · cases ht : s.treasury with
    | none => rw [ht] at h; exact absurd h (by simp)
    | some t =>
        rw [ht] at h
        simp only [Except.ok.injEq, Prod.mk.injEq] at h
        obtain ⟨hs, htr, hid⟩ := h
        subst hs
        refine ⟨hid.symm, rfl, rfl, by omega, by omega, by omega, by omega, rfl⟩
  · simp only [Except.ok.injEq, Prod.mk.injEq] at h
    obtain ⟨hs, htr, hid⟩ := h
    subst hs
    refine ⟨hid.symm, rfl, rfl, by omega, by omega, by omega, by omega, rfl⟩

theorem create_batch_ok_inv (s : State) (auths : List Nat) (se tok : Nat)
    (rs : List StreamRequest) (s1 : State) (tr : List Transfer) (ids : List Nat)
    (h : create_batch_streams s auths se tok rs = .ok (s1, tr, ids)) :
    (∀ r ∈ rs, r.start_time < r.end_time ∧ 0 < r.amount) ∧
      tr = [⟨se, contractAddress, (rs.map StreamRequest.amount).sum⟩] ∧
      ids = List.range' (s.streamId + 1) rs.length ∧
      s1.streamId = s.streamId + rs.length ∧
      s1.streams = (insertStreams se tok s.streams s.streamId rs).1 ∧
      s1.feeBps = s.feeBps ∧ s1.isPaused = s.isPaused := by
  unfold create_batch_streams at h
  split_ifs at h with h1
  · cases hv : validateRequests rs with
    | error e => rw [hv] at h; exact absurd h (by simp)
    | ok total =>
        rw [hv] at h
        simp only [Except.ok.injEq, Prod.mk.injEq] at h
        obtain ⟨hs, htr, hid⟩ := h
        subst hs
        have hvalid := validateRequests_ok_valid rs total hv
        have hv2 := validateRequests_ok_of_valid rs hvalid
        rw [hv2] at hv
        simp only [Except.ok.injEq] at hv
        refine ⟨hvalid, ?_, ?_, ?_, rfl, rfl, rfl⟩
        · rw [← htr, hv]
        · rw [← hid, insertStreams_ids]
        · simp only [insertStreams_counter]

theorem withdraw_ok_inv (s : State) (auths : List Nat) (now stream_id re : Nat)
    (s1 : State) (tr : List Transfer) (w : Int)
    (h : withdraw s auths now stream_id re = .ok (s1, tr, w)) :
    ∃ st, getEntry s.streams stream_id = some st ∧ re = st.receiver ∧
      w = calculate_unlocked st.amount st.start_time st.cliff_time st.end_time now -
            st.withdrawn_amount ∧ 0 < w ∧
      tr = [⟨contractAddress, re, w⟩] ∧
      s1.streams = setEntry s.streams stream_id
        ⟨st.sender, st.receiver, st.token, st.amount, st.start_time, st.cliff_time,
          st.end_time, st.withdrawn_amount + w⟩ ∧
      s1.streamId = s.streamId ∧ s1.admin = s.admin ∧ s1.roles = s.roles ∧
      s1.feeBps = s.feeBps ∧ s1.treasury = s.treasury ∧ s1.isPaused = s.isPaused := by
  unfold withdraw at h
  split_ifs at h with h1 h2
  cases hg : getEntry s.streams stream_id with
  | none => rw [hg] at h; exact absurd h (by simp)
  | some st =>
      rw [hg] at h
      simp only at h
      split_ifs at h with h3 h4
      simp only [Except.ok.injEq, Prod.mk.injEq] at h
      obtain ⟨hs, htr, hw⟩ := h
      subst hs
      refine ⟨st, rfl, by omega, by omega, by omega, ?_, ?_, rfl, rfl, rfl, rfl, rfl, rfl⟩
      · rw [← htr, hw]
      · rw [hw]

theorem cancel_ok_inv (s : State) (auths : List Nat) (now stream_id : Nat)
    (s1 : State) (tr : List Transfer) (u : Unit)
    (h : cancel_stream s auths now stream_id = .ok (s1, tr, u)) :
    ∃ st, getEntry s.streams stream_id = some st ∧ st.sender ∈ auths ∧
      now < st.end_time ∧
      s1 = { s with streams := removeEntry s.streams stream_id } := by
  unfold cancel_stream at h
  split_ifs at h with h1
  cases hg : getEntry s.streams stream_id with
  | none => rw [hg] at h; exact absurd h (by simp)
  | some st =>
      rw [hg] at h
      simp only at h
      split_ifs at h with h2 h3 h4
      all_goals simp only [Except.ok.injEq, Prod.mk.injEq] at h
      all_goals exact ⟨st, rfl, h2, by omega, h.1.symm⟩

theorem transfer_receiver_ok_inv (s : State) (auths : List Nat) (stream_id nr : Nat)
    (s1 : State) (h : transfer_receiver s auths stream_id nr = .ok s1) :
    ∃ st, getEntry s.streams stream_id = some st ∧
      s1 = { s with streams := setEntry s.streams stream_id { st with receiver := nr } } := by
  unfold transfer_receiver at h
  cases hg : getEntry s.streams stream_id with
  | none => rw [hg] at h; exact absurd h (by simp)
  | some st =>
      rw [hg] at h
      simp only at h
      split_ifs at h with h1
      simp only [Except.ok.injEq] at h
      exact ⟨st, rfl, h.symm⟩

end StellarStream

namespace StellarStream

theorem streamInv_step (s : State) (ids : List Nat) (s1 : State)
    (h : Step s ids s1) (hs : StateInv s) : StateInv s1 := by
  obtain ⟨hstreams, hfee⟩ := hs
  cases h with
  | doInit h1 =>
      obtain ⟨e1, e2, e3⟩ := initContract_ok_frame _ _ _ _ h1
      exact ⟨by rw [e1]; exact hstreams, by rw [e3]; exact hfee⟩
  | doGrant h1 =>
      obtain ⟨e1, e2, e3⟩ := grant_role_ok_frame _ _ _ _ _ _ h1
      exact ⟨by rw [e1]; exact hstreams, by rw [e3]; exact hfee⟩
  | doRevoke h1 =>
      obtain ⟨e1, e2, e3⟩ := revoke_role_ok_frame _ _ _ _ _ _ h1
      exact ⟨by rw [e1]; exact hstreams, by rw [e3]; exact hfee⟩
  | doInitFee h1 =>
      obtain ⟨e1, e2, e3⟩ := init_fee_ok_frame _ _ _ _ _ _ h1
      exact ⟨by rw [e1]; exact hstreams, e3⟩
  | doUpdateFee h1 =>
      obtain ⟨e1, e2, e3⟩ := update_fee_ok_frame _ _ _ _ _ h1
      exact ⟨by rw [e1]; exact hstreams, e3⟩
  | doUpdateTreasury h1 =>
      obtain ⟨e1, e2, e3⟩ := update_treasury_ok_frame _ _ _ _ _ h1
      exact ⟨by rw [e1]; exact hstreams, by rw [e3]; exact hfee⟩
  | doSetPause h1 =>
      obtain ⟨e1, e2, e3⟩ := set_pause_ok_frame _ _ _ _ _ h1
      exact ⟨by rw [e1]; exact hstreams, by rw [e3]; exact hfee⟩
  | doCreate h1 =>
      obtain ⟨eid, e2, e3, ht13, ht12, ht23, hamt, e4⟩ :=
        create_stream_ok_inv _ _ _ _ _ _ _ _ _ _ _ _ h1
      constructor
      · intro p hp
        rw [e4] at hp
        rcases mem_setEntry _ _ _ _ hp with h2 | h2
        · rw [h2]
          have hfeelt := fee_lt_amount _ _ hamt hfee
          dsimp only [StreamInv]
          exact ⟨ht13, Int.sub_pos.mpr hfeelt, le_refl 0,
            le_of_lt (Int.sub_pos.mpr hfeelt)⟩
        · exact hstreams p h2
      · rw [e3]; exact hfee
  | doCreateBatch h1 =>
      obtain ⟨hvalid, htr, hids, e2, e3, e4, e5⟩ := create_batch_ok_inv _ _ _ _ _ _ _ _ h1
      constructor
      · intro p hp
        rw [e3] at hp
        rcases mem_insertStreams _ _ _ _ _ _ hp with h2 | ⟨r, hr, hr2⟩
        · exact hstreams p h2
        · obtain ⟨hr3, hr4⟩ := hvalid r hr
          rw [hr2]
          exact ⟨hr3, hr4, le_refl 0, le_of_lt hr4⟩
      · rw [e4]; exact hfee
  | doWithdraw h1 =>
      rename_i auths2 now2 id2 re2 tr2 w2
      obtain ⟨st, hg, hre, hw, hwpos, htr, e1, e2, e3, e4, e5, e6, e7⟩ :=
        withdraw_ok_inv _ _ _ _ _ _ _ _ h1
      obtain ⟨hi1, hi2, hi3, hi4⟩ := hstreams _ (getEntry_mem _ _ _ hg)
      dsimp only at hi1 hi2 hi3 hi4
      constructor
      · intro p hp
        rw [e1] at hp
        rcases mem_setEntry _ _ _ _ hp with h2 | h2
        · rw [h2]
          have hle := unlocked_le_total st.amount st.start_time st.cliff_time st.end_time
            now2 (le_of_lt hi2) hi1
          dsimp only [StreamInv]
          exact ⟨hi1, hi2, by omega, by omega⟩
        · exact hstreams p h2
      · rw [e5]; exact hfee
  | doCancel h1 =>
      obtain ⟨st, hg, ha, hn, e1⟩ := cancel_ok_inv _ _ _ _ _ _ _ h1
      constructor
      · intro p hp
        rw [e1] at hp
        exact hstreams p (mem_removeEntry _ _ _ hp)
      · rw [e1]; exact hfee
  | doTransferReceiver h1 =>
      obtain ⟨st, hg, e1⟩ := transfer_receiver_ok_inv _ _ _ _ _ h1
      obtain ⟨hi1, hi2, hi3, hi4⟩ := hstreams _ (getEntry_mem _ _ _ hg)
      constructor
      · intro p hp
        rw [e1] at hp
        rcases mem_setEntry _ _ _ _ hp with h2 | h2
        · rw [h2]
          exact ⟨hi1, hi2, hi3, hi4⟩
        · exact hstreams p h2
      · rw [e1]; exact hfee

theorem step_streamId (s : State) (ids : List Nat) (s1 : State) (h : Step s ids s1) :
    s.streamId ≤ s1.streamId ∧ (∀ i ∈ ids, s.streamId < i ∧ i ≤ s1.streamId) ∧
      List.Pairwise (· < ·) ids := by
  cases h with
  | doInit h1 =>
      obtain ⟨e1, e2, e3⟩ := initContract_ok_frame _ _ _ _ h1
      exact ⟨by omega, by intro i hi; simp at hi, by simp⟩
  | doGrant h1 =>
      obtain ⟨e1, e2, e3⟩ := grant_role_ok_frame _ _ _ _ _ _ h1
      exact ⟨by omega, by intro i hi; simp at hi, by simp⟩
  | doRevoke h1 =>
      obtain ⟨e1, e2, e3⟩ := revoke_role_ok_frame _ _ _ _ _ _ h1
      exact ⟨by omega, by intro i hi; simp at hi, by simp⟩
  | doInitFee h1 =>
      obtain ⟨e1, e2, e3⟩ := init_fee_ok_frame _ _ _ _ _ _ h1
      exact ⟨by omega, by intro i hi; simp at hi, by simp⟩
  | doUpdateFee h1 =>
      obtain ⟨e1, e2, e3⟩ := update_fee_ok_frame _ _ _ _ _ h1
      exact ⟨by omega, by intro i hi; simp at hi, by simp⟩
  | doUpdateTreasury h1 =>
      obtain ⟨e1, e2, e3⟩ := update_treasury_ok_frame _ _ _ _ _ h1
      exact ⟨by omega, by intro i hi; simp at hi, by simp⟩
  | doSetPause h1 =>
      obtain ⟨e1, e2, e3⟩ := set_pause_ok_frame _ _ _ _ _ h1
      exact ⟨by omega, by intro i hi; simp at hi, by simp⟩
  | doCreate h1 =>
      obtain ⟨eid, e2, e3, ht13, ht12, ht23, hamt, e4⟩ := create_stream_ok_inv _ _ _ _ _ _ _ _ _ _ _ _ h1
      refine ⟨by omega, ?_, by simp⟩
      intro i hi
      simp only [List.mem_singleton] at hi
      omega
  | doCreateBatch h1 =>
      obtain ⟨hvalid, htr, hids, e2, e3, e4, e5⟩ := create_batch_ok_inv _ _ _ _ _ _ _ _ h1
      refine ⟨by omega, ?_, ?_⟩
      · intro i hi
        rw [hids, List.mem_range'_1] at hi
        omega
      · rw [hids]
        exact List.pairwise_lt_range' _ _
  | doWithdraw h1 =>
      obtain ⟨st, hg, hre, hw, hwpos, htr, e1, e2, e3, e4, e5, e6, e7⟩ :=
        withdraw_ok_inv _ _ _ _ _ _ _ _ h1
      exact ⟨by omega, by intro i hi; simp at hi, by simp⟩
  | doCancel h1 =>
      obtain ⟨st, hg, ha, hn, e1⟩ := cancel_ok_inv _ _ _ _ _ _ _ h1
      exact ⟨by rw [e1], by intro i hi; simp at hi, by simp⟩
  | doTransferReceiver h1 =>
      obtain ⟨st, hg, e1⟩ := transfer_receiver_ok_inv _ _ _ _ _ h1
      exact ⟨by rw [e1], by intro i hi; simp at hi, by simp⟩

theorem trace_streamId_mono (s : State) (obs : List (List Nat)) (s1 : State)
    (h : Trace s obs s1) : s.streamId ≤ s1.streamId := by
  induction h with
  | nil => exact le_refl _
  | cons hstep htrace ih =>
      exact le_trans (step_streamId _ _ _ hstep).1 ih

theorem trace_append_split (s : State) (l1 l2 : List (List Nat)) (s2 : State)
    (h : Trace s (l1 ++ l2) s2) : ∃ sm, Trace s l1 sm ∧ Trace sm l2 s2 := by
  induction l1 generalizing s with
  | nil => exact ⟨s, Trace.nil, h⟩
  | cons ids rest ih =>
      cases h with
      | cons hstep htrace =>
          obtain ⟨sm, hm1, hm2⟩ := ih _ htrace
          exact ⟨sm, Trace.cons hstep hm1, hm2⟩

end StellarStream

namespace StellarStream

/-- C1: for every stream with amount > 0, start_time < end_time and
start_time <= cliff_time < end_time, calculate_unlocked returns 0 when
now < cliff, the full total when now >= end, the truncated linear
interpolation total * (now - start) / (end - start) when cliff <= now < end,
and for all now its value lies between 0 and total inclusive and is
monotonically non-decreasing in now. -/
theorem c1_calculate_unlocked_correct (total : Int) (start_time cliff_time end_time : Nat)
    (htot : 0 < total) (hse : start_time < end_time) (hsc : start_time ≤ cliff_time)
    (hce : cliff_time < end_time) :
    ∀ now : Nat,
      (now < cliff_time → calculate_unlocked total start_time cliff_time end_time now = 0) ∧
      (end_time ≤ now → calculate_unlocked total start_time cliff_time end_time now = total) ∧
      (cliff_time ≤ now → now < end_time →
        calculate_unlocked total start_time cliff_time end_time now =
          total * ((now : Int) - (start_time : Int)) /
            ((end_time : Int) - (start_time : Int))) ∧
      0 ≤ calculate_unlocked total start_time cliff_time end_time now ∧
      calculate_unlocked total start_time cliff_time end_time now ≤ total ∧
      (∀ n2 : Nat, now ≤ n2 →
        calculate_unlocked total start_time cliff_time end_time now ≤
          calculate_unlocked total start_time cliff_time end_time n2) := by
  intro now
  refine ⟨?_, ?_, ?_, ?_, ?_, ?_⟩
  · intro h
    rw [calculate_unlocked, if_pos h]
  · intro h
    rw [calculate_unlocked, if_neg (by omega), if_pos h]
  · intro h1 h2
    rw [calculate_unlocked, if_neg (by omega), if_neg (by omega)]
  · exact unlocked_nonneg total start_time cliff_time end_time now (le_of_lt htot) hsc
  · exact unlocked_le_total total start_time cliff_time end_time now (le_of_lt htot) hse
  · intro n2 h12
    exact unlocked_mono total start_time cliff_time end_time (le_of_lt htot) hsc now n2 h12

/-- Witness for c1_calculate_unlocked_correct: the Scenario A stream (1000
over [100, 200], cliff at start) evaluated at now = 150 gives 500, within
bounds and below the value at 175. -/
theorem c1_witness :
    calculate_unlocked 1000 100 100 200 150 =
        1000 * ((150 : Int) - (100 : Int)) / ((200 : Int) - (100 : Int)) ∧
      0 ≤ calculate_unlocked 1000 100 100 200 150 ∧
      calculate_unlocked 1000 100 100 200 150 ≤ 1000 ∧
      calculate_unlocked 1000 100 100 200 150 ≤ calculate_unlocked 1000 100 100 200 175 := by
  have h := c1_calculate_unlocked_correct 1000 100 100 200 (by decide) (by decide)
    (by decide) (by decide) 150
  exact ⟨h.2.2.1 (by decide) (by decide), h.2.2.2.1, h.2.2.2.2.1,
    h.2.2.2.2.2 175 (by decide)⟩

end StellarStream

namespace StellarStream

/-- Counterexample to C2 as stated: starting from the freshly deployed state,
which satisfies every invariant, the public operation create_batch_streams
succeeds on a request whose cliff_time (999) lies beyond its end_time (20),
because the batch path validates only `end > start` and `amount > 0`.  The
resulting live stream violates `start_time <= cliff_time < end_time`. -/
theorem c2_counterexample :
    StateInv ⟨[], 0, none, [], none, none, none⟩ ∧
    create_batch_streams ⟨[], 0, none, [], none, none, none⟩ [2] 2 7
        [⟨3, 5, 10, 999, 20⟩] =
      .ok (⟨[(1, ⟨2, 3, 7, 5, 10, 999, 20, 0⟩)], 1, none, [], none, none, none⟩,
        [⟨2, 0, 5⟩], [1]) ∧
    getEntry [(1, (⟨2, 3, 7, 5, 10, 999, 20, 0⟩ : Stream))] 1 =
      some ⟨2, 3, 7, 5, 10, 999, 20, 0⟩ ∧
    ¬((⟨2, 3, 7, 5, 10, 999, 20, 0⟩ : Stream).start_time ≤
        (⟨2, 3, 7, 5, 10, 999, 20, 0⟩ : Stream).cliff_time ∧
      (⟨2, 3, 7, 5, 10, 999, 20, 0⟩ : Stream).cliff_time <
        (⟨2, 3, 7, 5, 10, 999, 20, 0⟩ : Stream).end_time) := by
  refine ⟨⟨?_, ?_⟩, rfl, rfl, by decide⟩
  · intro p hp
    simp at hp
  · simp

/-- C2 (amended): the cliff bound is dropped from the global invariant, since
create_batch_streams never validates cliff_time.  Every live stream satisfies
start_time < end_time, amount > 0 and 0 <= withdrawn_amount <= amount before
and after every successful public operation (given the stored fee never
exceeds 1000 bps, which the fee setters enforce), and create_stream
additionally persists its new stream with start_time <= cliff_time <
end_time and withdrawn_amount = 0. -/
theorem c2_amended_invariants :
    (∀ s ids s1, StateInv s → Step s ids s1 → StateInv s1) ∧
    (∀ s auths se re tok amt t1 t2 t3 s1 tr id,
       create_stream s auths se re tok amt t1 t2 t3 = .ok (s1, tr, id) →
       ∃ st, getEntry s1.streams id = some st ∧
         st.start_time ≤ st.cliff_time ∧ st.cliff_time < st.end_time ∧
         st.start_time < st.end_time ∧ st.withdrawn_amount = 0) := by
  constructor
  · intro s ids s1 hs h
    exact streamInv_step s ids s1 h hs
  · intro s auths se re tok amt t1 t2 t3 s1 tr id h
    obtain ⟨eid, e2, e3, ht13, ht12, ht23, hamt, e4⟩ :=
      create_stream_ok_inv _ _ _ _ _ _ _ _ _ _ _ _ h
    refine ⟨⟨se, re, tok, amt - amt * ((s.feeBps.getD 0 : Nat) : Int) / 10000,
      t1, t2, t3, 0⟩, ?_, ht12, ht23, ht13, rfl⟩
    rw [e4, eid]
    exact getEntry_setEntry_self _ _ _

/-- Witness for c2_amended_invariants: one concrete withdraw step from an
invariant-satisfying one-stream state preserves the invariant. -/
theorem c2_witness :
    StateInv ⟨[(1, ⟨2, 3, 7, 1000, 100, 100, 200, 500⟩)], 1, none, [], none, none,
      none⟩ := by
  have h := c2_amended_invariants.1
    ⟨[(1, ⟨2, 3, 7, 1000, 100, 100, 200, 0⟩)], 1, none, [], none, none, none⟩ []
    ⟨[(1, ⟨2, 3, 7, 1000, 100, 100, 200, 500⟩)], 1, none, [], none, none, none⟩
    (by constructor
        · intro p hp
          simp only [List.mem_singleton] at hp
          rw [hp]
          exact ⟨by decide, by decide, by decide, by decide⟩
        · simp)
    (Step.doWithdraw (show
      withdraw ⟨[(1, ⟨2, 3, 7, 1000, 100, 100, 200, 0⟩)], 1, none, [], none, none, none⟩
          [3] 150 1 3 =
        .ok (⟨[(1, ⟨2, 3, 7, 1000, 100, 100, 200, 500⟩)], 1, none, [], none, none, none⟩,
          [⟨0, 3, 500⟩], 500) from rfl))
  exact h

end StellarStream

namespace StellarStream

/-- C3: for an existing stream, withdraw authenticates the given receiver
(failing when the receiver did not sign), fails fatally when that receiver is
not the stream's current receiver, computes
withdrawable = calculate_unlocked(now) - withdrawn_amount (calculate_unlocked
being the spec-modelled vesting function), fails fatally when
withdrawable <= 0, and otherwise transfers exactly withdrawable from escrow
to the receiver, increases withdrawn_amount by withdrawable and returns it;
consequently a second withdraw at the same timestamp immediately after a
successful one fails with the nothing-withdrawable error instead of
transferring funds again. -/
theorem c3_withdraw_correct (s : State) (auths : List Nat)
    (now stream_id receiver : Nat) (st : Stream)
    (hp : pausedFlag s = false)
    (hst : getEntry s.streams stream_id = some st) :
    (receiver ∉ auths →
      withdraw s auths now stream_id receiver = .error .notAuthorized) ∧
    (receiver ∈ auths → receiver ≠ st.receiver →
      withdraw s auths now stream_id receiver = .error .notReceiver) ∧
    (receiver ∈ auths → receiver = st.receiver →
      calculate_unlocked st.amount st.start_time st.cliff_time st.end_time now -
          st.withdrawn_amount ≤ 0 →
      withdraw s auths now stream_id receiver = .error .nothingWithdrawable) ∧
    (receiver ∈ auths → receiver = st.receiver →
      ∀ w : Int,
        w = calculate_unlocked st.amount st.start_time st.cliff_time st.end_time now -
              st.withdrawn_amount →
        0 < w →
        withdraw s auths now stream_id receiver =
          .ok ({ s with streams := setEntry s.streams stream_id
                          ⟨st.sender, st.receiver, st.token, st.amount, st.start_time,
                            st.cliff_time, st.end_time, st.withdrawn_amount + w⟩ },
            [⟨contractAddress, receiver, w⟩], w) ∧
        (∀ s1 tr r, withdraw s auths now stream_id receiver = .ok (s1, tr, r) →
          withdraw s1 auths now stream_id receiver = .error .nothingWithdrawable)) := by
  refine ⟨?_, ?_, ?_, ?_⟩
  · intro hna
    rw [withdraw, if_neg (by simp [hp]), if_neg hna]
  · intro hmem hne
    simp [withdraw, hp, hst, hmem, hne]
  · intro hmem hre hle
    have hmem2 : st.receiver ∈ auths := hre ▸ hmem
    have hle2 : calculate_unlocked st.amount st.start_time st.cliff_time st.end_time now ≤
        st.withdrawn_amount := by omega
    simp [withdraw, hp, hst, hmem, hmem2, hre, hle2]
  · intro hmem hre w hw hwpos
    have hmem2 : st.receiver ∈ auths := hre ▸ hmem
    constructor
    · have hcond : ¬(calculate_unlocked st.amount st.start_time st.cliff_time
          st.end_time now ≤ st.withdrawn_amount) := by omega
      subst hw
      simp [withdraw, hp, hst, hmem, hmem2, hre, hcond]
    · intro s1 tr r hok
      obtain ⟨st2, hg2, hre2, hw2, hwpos2, htr2, e1, e2, e3, e4, e5, e6, e7⟩ :=
        withdraw_ok_inv _ _ _ _ _ _ _ _ hok
      rw [hst] at hg2
      injection hg2 with hst2
      subst hst2
      have hp1 : pausedFlag s1 = false := by
        unfold pausedFlag
        rw [e7]
        exact hp
      have hg1 : getEntry s1.streams stream_id = some ⟨st.sender, st.receiver, st.token,
          st.amount, st.start_time, st.cliff_time, st.end_time,
          st.withdrawn_amount + r⟩ := by
        rw [e1]
        exact getEntry_setEntry_self _ _ _
      have hzero : calculate_unlocked st.amount st.start_time st.cliff_time st.end_time
          now ≤ st.withdrawn_amount + r := by omega
      simp [withdraw, hp1, hmem, hmem2, hg1, hre, hzero]

/-- Witness for c3_withdraw_correct: the Scenario A stream withdrawn at
now = 150 pays 500 and updates withdrawn_amount to 500; an immediate second
withdraw at the same timestamp fails. -/
theorem c3_witness :
    withdraw ⟨[(1, ⟨2, 3, 7, 1000, 100, 100, 200, 0⟩)], 1, none, [], none, none, none⟩
        [3] 150 1 3 =
      .ok (⟨[(1, ⟨2, 3, 7, 1000, 100, 100, 200, 500⟩)], 1, none, [], none, none, none⟩,
        [⟨0, 3, 500⟩], 500) ∧
    withdraw ⟨[(1, ⟨2, 3, 7, 1000, 100, 100, 200, 500⟩)], 1, none, [], none, none, none⟩
        [3] 150 1 3 = .error .nothingWithdrawable := by
  have h := (c3_withdraw_correct
    ⟨[(1, ⟨2, 3, 7, 1000, 100, 100, 200, 0⟩)], 1, none, [], none, none, none⟩
    [3] 150 1 3 ⟨2, 3, 7, 1000, 100, 100, 200, 0⟩ rfl rfl).2.2.2
    (by decide) rfl 500 (by decide) (by decide)
  refine ⟨?_, ?_⟩
  · exact h.1
  · have h2 := h.2 _ _ _ h.1
    exact h2

end StellarStream

namespace StellarStream

/-- C4: for an existing stream, cancel_stream authenticates the stream's
sender, fails fatally when now >= end_time, and otherwise pays
to_receiver = unlocked(now) - withdrawn_amount to the receiver only when that
value is positive, pays to_sender = amount - withdrawn_amount - to_receiver
(which the code computes as amount - unlocked, the same quantity) to the
sender when positive, deletes the stream entity, and afterwards a lookup of
the stream id fails with the not-found error.  unlocked(now) comes from the
spec-modelled calculate_unlocked. -/
theorem c4_cancel_correct (s : State) (auths : List Nat) (now stream_id : Nat)
    (st : Stream)
    (hp : pausedFlag s = false)
    (hst : getEntry s.streams stream_id = some st) :
    (st.sender ∉ auths →
      cancel_stream s auths now stream_id = .error .notAuthorized) ∧
    (st.sender ∈ auths → st.end_time ≤ now →
      cancel_stream s auths now stream_id = .error .alreadyCompleted) ∧
    (st.sender ∈ auths → now < st.end_time →
      ∀ u toR refund : Int,
        u = calculate_unlocked st.amount st.start_time st.cliff_time st.end_time now →
        toR = u - st.withdrawn_amount →
        refund = st.amount - u →
        refund = st.amount - st.withdrawn_amount - toR ∧
        cancel_stream s auths now stream_id =
          .ok ({ s with streams := removeEntry s.streams stream_id },
            (if 0 < toR then [(⟨contractAddress, st.receiver, toR⟩ : Transfer)] else []) ++
              (if 0 < refund then [(⟨contractAddress, st.sender, refund⟩ : Transfer)]
               else []),
            ()) ∧
        get_stream { s with streams := removeEntry s.streams stream_id } stream_id =
          .error .streamNotFound) := by
  refine ⟨?_, ?_, ?_⟩
  · intro hna
    simp [cancel_stream, hp, hst, hna]
  · intro hmem hend
    simp [cancel_stream, hp, hst, hmem, hend]
  · intro hmem hlt u toR refund hu htoR hrefund
    refine ⟨by omega, ?_, ?_⟩
    · subst hu
      subst htoR
      subst hrefund
      have hcond : ¬(st.end_time ≤ now) := by omega
      simp [cancel_stream, hp, hst, hmem, hcond]
    · simp [get_stream, getEntry_removeEntry_self]

/-- Witness for c4_cancel_correct: Scenario C, cancelling the 1000/100/200
stream at now = 150 with nothing withdrawn pays 500 to the receiver and 500
back to the sender, and the stream is no longer retrievable. -/
theorem c4_witness :
    cancel_stream ⟨[(1, ⟨2, 3, 7, 1000, 100, 100, 200, 0⟩)], 1, none, [], none, none,
        none⟩ [2] 150 1 =
      .ok (⟨[], 1, none, [], none, none, none⟩,
        [⟨0, 3, 500⟩, ⟨0, 2, 500⟩], ()) ∧
    get_stream ⟨[], 1, none, [], none, none, none⟩ 1 = .error .streamNotFound := by
  have h := (c4_cancel_correct
    ⟨[(1, ⟨2, 3, 7, 1000, 100, 100, 200, 0⟩)], 1, none, [], none, none, none⟩
    [2] 150 1 ⟨2, 3, 7, 1000, 100, 100, 200, 0⟩ rfl rfl).2.2
    (by decide) (by decide) 500 500 500 (by decide) (by decide) (by decide)
  exact ⟨h.2.1, h.2.2⟩

end StellarStream

namespace StellarStream

/-- C5: for create_stream with amount > 0 and the configured fee_bps, the fee
split is fee = floor(amount * fee_bps / 10000) and principal = amount - fee;
the sender is debited the full amount as a transfer of principal to escrow
plus a transfer of fee to the treasury; the stream is persisted with its
amount field equal to principal; and when fee = 0 no treasury transfer is
attempted and the absence of a treasury is tolerated (the fee = 0 case needs
no hypothesis about the stored treasury). -/
theorem c5_create_stream_fee (s : State) (auths : List Nat)
    (sender receiver token : Nat) (amount : Int) (t1 t2 t3 : Nat)
    (hp : pausedFlag s = false) (hmem : sender ∈ auths)
    (h13 : t1 < t3) (h12 : t1 ≤ t2) (h23 : t2 < t3) (hamt : 0 < amount) :
    ∀ fee principal : Int,
      fee = amount * ((s.feeBps.getD 0 : Nat) : Int) / 10000 →
      principal = amount - fee →
      principal + fee = amount ∧
      getEntry (setEntry s.streams (s.streamId + 1)
          ⟨sender, receiver, token, principal, t1, t2, t3, 0⟩) (s.streamId + 1) =
        some ⟨sender, receiver, token, principal, t1, t2, t3, 0⟩ ∧
      (fee = 0 →
        create_stream s auths sender receiver token amount t1 t2 t3 =
          .ok ({ s with streamId := s.streamId + 1,
                        streams := setEntry s.streams (s.streamId + 1)
                          ⟨sender, receiver, token, principal, t1, t2, t3, 0⟩ },
            [⟨sender, contractAddress, principal⟩], s.streamId + 1)) ∧
      (∀ t, 0 < fee → s.treasury = some t →
        create_stream s auths sender receiver token amount t1 t2 t3 =
          .ok ({ s with streamId := s.streamId + 1,
                        streams := setEntry s.streams (s.streamId + 1)
                          ⟨sender, receiver, token, principal, t1, t2, t3, 0⟩ },
            [⟨sender, contractAddress, principal⟩, ⟨sender, t, fee⟩],
            s.streamId + 1)) := by
  intro fee principal hfee hprin
  subst hfee
  subst hprin
  have hc1 : ¬(t3 ≤ t1) := by omega
  have hc2 : ¬(t2 < t1 ∨ t3 ≤ t2) := by omega
  have hc3 : ¬(amount ≤ 0) := by omega
  refine ⟨by omega, getEntry_setEntry_self _ _ _, ?_, ?_⟩
  · intro hfz
    simp [create_stream, hp, hmem, hc1, hc2, hc3, hfz]
  · intro t hfpos ht
    simp [create_stream, hp, hmem, hc1, hc2, hc3, hfpos, ht]

/-- Witness for c5_create_stream_fee: Scenario E, fee_bps = 500 and
amount = 1000 debits the sender 1000 in total, escrows 950 as the stream's
principal and sends 50 to the treasury. -/
theorem c5_witness :
    create_stream ⟨[], 0, none, [], some 500, some 9, none⟩ [2] 2 3 7 1000 100 100 200 =
      .ok (⟨[(1, ⟨2, 3, 7, 950, 100, 100, 200, 0⟩)], 1, none, [], some 500, some 9,
        none⟩, [⟨2, 0, 950⟩, ⟨2, 9, 50⟩], 1) ∧
    (950 : Int) + 50 = 1000 := by
  have h := c5_create_stream_fee ⟨[], 0, none, [], some 500, some 9, none⟩ [2] 2 3 7
    1000 100 100 200 rfl (by decide) (by decide) (by decide) (by decide) (by decide)
    50 950 (by decide) (by decide)
  exact ⟨h.2.2.2 9 (by decide) rfl, h.1⟩

end StellarStream

namespace StellarStream

/-- C6: the guarded withdraw and cancel_stream (spec-modelled, since the
guard's source -- the StreamingContract variant tested in
src/contracts/src/test.rs -- is not under src/) form a single-flight
reentrancy guard.  When the lock is set, as it is in the intermediate state
seen by the external transfer of an in-progress guarded operation, any second
guarded operation fails with the reentrancy error and returns the state
unchanged; the outer operation nevertheless commits exactly the effect of the
unguarded body; and the lock is cleared on every exit path of a call entered
with the lock free -- success and early failure alike -- so it never
persists across calls. -/
theorem c6_reentrancy_guard (g : GState) (auths auths2 : List Nat)
    (now now2 stream_id stream_id2 receiver receiver2 : Nat) :
    (g.lock = true →
      guarded_withdraw g auths now stream_id receiver = (g, .error .reentrant) ∧
      guarded_cancel g auths now stream_id = (g, .error .reentrant)) ∧
    (g.lock = false →
      guarded_withdraw ⟨g.base, true⟩ auths2 now2 stream_id2 receiver2 =
        (⟨g.base, true⟩, .error .reentrant) ∧
      guarded_cancel ⟨g.base, true⟩ auths2 now2 stream_id2 =
        (⟨g.base, true⟩, .error .reentrant) ∧
      (∀ b tr w, withdraw g.base auths now stream_id receiver = .ok (b, tr, w) →
        guarded_withdraw g auths now stream_id receiver = (⟨b, false⟩, .ok (tr, w))) ∧
      (∀ e, withdraw g.base auths now stream_id receiver = .error e →
        guarded_withdraw g auths now stream_id receiver = (⟨g.base, false⟩, .error e)) ∧
      (∀ b tr u, cancel_stream g.base auths now stream_id = .ok (b, tr, u) →
        guarded_cancel g auths now stream_id = (⟨b, false⟩, .ok tr)) ∧
      (∀ e, cancel_stream g.base auths now stream_id = .error e →
        guarded_cancel g auths now stream_id = (⟨g.base, false⟩, .error e)) ∧
      (guarded_withdraw g auths now stream_id receiver).1.lock = false ∧
      (guarded_cancel g auths now stream_id).1.lock = false) := by
  constructor
  · intro hl
    constructor
    · rw [guarded_withdraw, if_pos hl]
    · rw [guarded_cancel, if_pos hl]
  · intro hl
    refine ⟨rfl, rfl, ?_, ?_, ?_, ?_, ?_, ?_⟩
    · intro b tr w hok
      rw [guarded_withdraw, if_neg (by simp [hl]), hok]
    · intro e herr
      rw [guarded_withdraw, if_neg (by simp [hl]), herr]
    · intro b tr u hok
      rw [guarded_cancel, if_neg (by simp [hl]), hok]
    · intro e herr
      rw [guarded_cancel, if_neg (by simp [hl]), herr]
    · rw [guarded_withdraw, if_neg (by simp [hl])]
      cases withdraw g.base auths now stream_id receiver with
      | ok x => rfl
      | error e => rfl
    · rw [guarded_cancel, if_neg (by simp [hl])]
      cases cancel_stream g.base auths now stream_id with
      | ok x => rfl
      | error e => rfl

/-- Witness for c6_reentrancy_guard: on the Scenario A stream, a nested
guarded withdraw against the locked mid-transfer state fails with the
reentrancy error and no state change, while the outer guarded withdraw
commits the transfer of 500 and ends with the lock clear. -/
theorem c6_witness :
    guarded_withdraw
        ⟨⟨[(1, ⟨2, 3, 7, 1000, 100, 100, 200, 0⟩)], 1, none, [], none, none, none⟩, true⟩
        [3] 150 1 3 =
      (⟨⟨[(1, ⟨2, 3, 7, 1000, 100, 100, 200, 0⟩)], 1, none, [], none, none, none⟩, true⟩,
        .error .reentrant) ∧
    guarded_withdraw
        ⟨⟨[(1, ⟨2, 3, 7, 1000, 100, 100, 200, 0⟩)], 1, none, [], none, none, none⟩, false⟩
        [3] 150 1 3 =
      (⟨⟨[(1, ⟨2, 3, 7, 1000, 100, 100, 200, 500⟩)], 1, none, [], none, none, none⟩,
        false⟩, .ok ([⟨0, 3, 500⟩], 500)) := by
  have h := c6_reentrancy_guard
    ⟨⟨[(1, ⟨2, 3, 7, 1000, 100, 100, 200, 0⟩)], 1, none, [], none, none, none⟩, false⟩
    [3] [3] 150 150 1 1 3 3
  refine ⟨(h.2 rfl).1, ?_⟩
  exact (h.2 rfl).2.2.1
    ⟨[(1, ⟨2, 3, 7, 1000, 100, 100, 200, 500⟩)], 1, none, [], none, none, none⟩
    [⟨0, 3, 500⟩] 500 rfl

end StellarStream

namespace StellarStream

/-- C7: create_batch_streams authenticates the sender once, validates
`end > start` and `amount > 0` for every request before any transfer (an
invalid request anywhere aborts the call with no transfer and no stream),
performs exactly one aggregate transfer of the sum of the amounts to escrow,
persists one stream per request under sequential ids with
withdrawn_amount = 0 and cliff_time taken from the request, applies no fee
split (each stored amount is the full request amount and the aggregate
transfer is the undiminished sum), and performs no pause check (the same
success equation holds with the pause flag set). -/
theorem c7_create_batch (s : State) (auths : List Nat) (sender token : Nat)
    (requests : List StreamRequest) (hmem : sender ∈ auths) :
    (∀ auths2, sender ∉ auths2 →
      create_batch_streams s auths2 sender token requests = .error .notAuthorized) ∧
    ((∃ r ∈ requests, r.end_time ≤ r.start_time ∨ r.amount ≤ 0) →
      ∃ e, create_batch_streams s auths sender token requests = .error e) ∧
    ((∀ r ∈ requests, r.start_time < r.end_time ∧ 0 < r.amount) →
      create_batch_streams s auths sender token requests =
        .ok ({ s with streams := (insertStreams sender token s.streams s.streamId
                        requests).1,
                      streamId := s.streamId + requests.length },
          [⟨sender, contractAddress, (requests.map StreamRequest.amount).sum⟩],
          List.range' (s.streamId + 1) requests.length) ∧
      create_batch_streams { s with isPaused := some true } auths sender token requests =
        .ok ({ s with isPaused := some true,
                      streams := (insertStreams sender token s.streams s.streamId
                        requests).1,
                      streamId := s.streamId + requests.length },
          [⟨sender, contractAddress, (requests.map StreamRequest.amount).sum⟩],
          List.range' (s.streamId + 1) requests.length) ∧
      (∀ i, (hi : i < requests.length) →
        getEntry (insertStreams sender token s.streams s.streamId requests).1
            (s.streamId + i + 1) =
          some (streamOfRequest sender token (requests.get ⟨i, hi⟩)))) := by
  refine ⟨?_, ?_, ?_⟩
  · intro auths2 hna
    simp [create_batch_streams, hna]
  · intro hbad
    obtain ⟨r, hr, hb⟩ := hbad
    cases hv : validateRequests requests with
    | error e => exact ⟨e, by simp [create_batch_streams, hmem, hv]⟩
    | ok t =>
        obtain ⟨h1, h2⟩ := validateRequests_ok_valid requests t hv r hr
        rcases hb with hb | hb <;> omega
  · intro hvalid
    have hv := validateRequests_ok_of_valid requests hvalid
    refine ⟨?_, ?_, ?_⟩
    · rw [create_batch_streams, if_pos hmem, hv]
      simp only
      rw [insertStreams_counter, insertStreams_ids]
    · rw [create_batch_streams, if_pos hmem]
      simp only
      rw [hv]
      simp only
      rw [insertStreams_counter, insertStreams_ids]
    · intro i hi
      exact insertStreams_getEntry sender token s.streams s.streamId requests i hi

/-- Witness for c7_create_batch: two valid requests on a paused, freshly
deployed state produce one aggregate transfer of 11 and two streams with
sequential ids 1 and 2, full request amounts and request cliffs. -/
theorem c7_witness :
    create_batch_streams ⟨[], 0, none, [], none, none, some true⟩ [2] 2 7
        [⟨3, 5, 10, 12, 20⟩, ⟨4, 6, 0, 0, 9⟩] =
      .ok (⟨[(1, ⟨2, 3, 7, 5, 10, 12, 20, 0⟩), (2, ⟨2, 4, 7, 6, 0, 0, 9, 0⟩)], 2, none,
        [], none, none, some true⟩, [⟨2, 0, 11⟩], [1, 2]) := by
  have h := (c7_create_batch ⟨[], 0, none, [], none, none, none⟩ [2] 2 7
    [⟨3, 5, 10, 12, 20⟩, ⟨4, 6, 0, 0, 9⟩] (by decide)).2.2
    (by intro r hr
        rcases List.mem_cons.mp hr with h1 | h1
        · rw [h1]; exact ⟨by decide, by decide⟩
        · rcases List.mem_cons.mp h1 with h2 | h2
          · rw [h2]; exact ⟨by decide, by decide⟩
          · simp at h2)
  exact h.2.1

end StellarStream

namespace StellarStream

/-- C8: stream ids come from a monotonic counter starting at 1.  In any run of
successful public operations from a freshly deployed state, every id issued
by a creation step is at least 1, the ids of a single step are strictly
increasing, and every id issued by a later creation step is strictly greater
than every id issued by an earlier one -- so an id is never reused, even
after cancel_stream deletes the stream that held it. -/
theorem c8_stream_ids_monotonic (s0 sF : State) (pre mid post : List (List Nat))
    (ids1 ids2 : List Nat) (_h0 : s0.streamId = 0)
    (h : Trace s0 (pre ++ ids1 :: (mid ++ ids2 :: post)) sF) :
    (∀ i ∈ ids1, 1 ≤ i) ∧ (∀ j ∈ ids2, 1 ≤ j) ∧
    List.Pairwise (· < ·) ids1 ∧ List.Pairwise (· < ·) ids2 ∧
    (∀ i ∈ ids1, ∀ j ∈ ids2, i < j) := by
  obtain ⟨sA, h1, h2⟩ := trace_append_split _ _ _ _ h
  cases h2 with
  | cons hstep1 htr1 =>
      obtain ⟨sC, h3, h4⟩ := trace_append_split _ _ _ _ htr1
      cases h4 with
      | cons hstep2 htr2 =>
          have L1 := step_streamId _ _ _ hstep1
          have L2 := step_streamId _ _ _ hstep2
          have M2 := trace_streamId_mono _ _ _ h3
          refine ⟨?_, ?_, L1.2.2, L2.2.2, ?_⟩
          · intro i hi
            have := (L1.2.1 i hi).1
            omega
          · intro j hj
            have := (L2.2.1 j hj).1
            omega
          · intro i hi j hj
            have hi2 := (L1.2.1 i hi).2
            have hj2 := (L2.2.1 j hj).1
            omega

/-- Witness for c8_stream_ids_monotonic: a create_stream issuing id 1 followed
by a create_batch_streams issuing ids 2 and 3, from a fresh state. -/
theorem c8_witness :
    (1 : Nat) ≤ 1 ∧ (1 : Nat) < 2 ∧ (1 : Nat) < 3 ∧
      List.Pairwise (· < ·) [2, 3] := by
  have h := c8_stream_ids_monotonic
    ⟨[], 0, none, [], none, none, none⟩
    ⟨[(1, ⟨2, 3, 7, 5, 0, 0, 10, 0⟩), (2, ⟨2, 3, 7, 4, 0, 0, 9, 0⟩),
      (3, ⟨2, 4, 7, 6, 1, 2, 8, 0⟩)], 3, none, [], none, none, none⟩
    [] [] [] [1] [2, 3] rfl
    (Trace.cons
      (Step.doCreate (show
        create_stream ⟨[], 0, none, [], none, none, none⟩ [2] 2 3 7 5 0 0 10 =
          .ok (⟨[(1, ⟨2, 3, 7, 5, 0, 0, 10, 0⟩)], 1, none, [], none, none, none⟩,
            [⟨2, 0, 5⟩], 1) from rfl))
      (Trace.cons
        (Step.doCreateBatch (show
          create_batch_streams
              ⟨[(1, ⟨2, 3, 7, 5, 0, 0, 10, 0⟩)], 1, none, [], none, none, none⟩ [2] 2 7
              [⟨3, 4, 0, 0, 9⟩, ⟨4, 6, 1, 2, 8⟩] =
            .ok (⟨[(1, ⟨2, 3, 7, 5, 0, 0, 10, 0⟩), (2, ⟨2, 3, 7, 4, 0, 0, 9, 0⟩),
              (3, ⟨2, 4, 7, 6, 1, 2, 8, 0⟩)], 3, none, [], none, none, none⟩,
              [⟨2, 0, 10⟩], [2, 3]) from rfl))
        Trace.nil))
  exact ⟨h.1 1 (by decide), h.2.2.2.2 1 (by decide) 2 (by decide),
    h.2.2.2.2 1 (by decide) 3 (by decide), h.2.2.2.1⟩

end StellarStream

namespace StellarStream

theorem grant_role_internal_mem_self (s : State) (account : Nat) (role : Role) :
    (account, role) ∈ (grant_role_internal s account role).roles := by
  unfold grant_role_internal
  by_cases h : (account, role) ∈ s.roles
  · rw [if_pos h]
    exact h
  · rw [if_neg h]
    exact List.mem_cons_self _ _

theorem grant_role_internal_mem_mono (s : State) (account : Nat) (role : Role)
    (p : Nat × Role) (hp : p ∈ s.roles) :
    p ∈ (grant_role_internal s account role).roles := by
  unfold grant_role_internal
  by_cases h : (account, role) ∈ s.roles
  · rw [if_pos h]
    exact hp
  · rw [if_neg h]
    exact List.mem_cons_of_mem _ hp

/-- C9: grant_role succeeds only when the caller signed the request and holds
Admin, in which case it sets the target's grant for the role and leaves all
existing grants in place; an authenticated caller without Admin fails with
the authorization error (and, an error aborting the call, changes no state);
and once Admin has been granted to that caller by an existing Admin, the same
call succeeds. -/
theorem c9_grant_role_admin_only (s : State) (auths : List Nat) (admin account : Nat)
    (role : Role) :
    (admin ∉ auths → grant_role s auths admin account role = .error .notAuthorized) ∧
    (admin ∈ auths → has_role s admin Role.Admin = false →
      grant_role s auths admin account role = .error .onlyAdmin) ∧
    (admin ∈ auths → has_role s admin Role.Admin = true →
      grant_role s auths admin account role = .ok (grant_role_internal s account role) ∧
      has_role (grant_role_internal s account role) account role = true ∧
      (∀ p ∈ s.roles, p ∈ (grant_role_internal s account role).roles)) ∧
    (∀ admin2 auths2 s2, admin2 ∈ auths2 →
      grant_role s auths2 admin2 admin Role.Admin = .ok s2 → admin ∈ auths →
      grant_role s2 auths admin account role =
        .ok (grant_role_internal s2 account role)) := by
  refine ⟨?_, ?_, ?_, ?_⟩
  · intro hna
    rw [grant_role, if_neg hna]
  · intro hmem hfalse
    rw [grant_role, if_pos hmem, if_neg (by simp [hfalse])]
  · intro hmem htrue
    refine ⟨by rw [grant_role, if_pos hmem, if_pos htrue], ?_, ?_⟩
    · exact decide_eq_true (grant_role_internal_mem_self s account role)
    · intro p hp
      exact grant_role_internal_mem_mono s account role p hp
  · intro admin2 auths2 s2 hmem2 hok hmem
    rw [grant_role, if_pos hmem2] at hok
    by_cases hb : has_role s admin2 Role.Admin = true
    · rw [if_pos hb] at hok
      injection hok with hs2
      subst hs2
      have hc : has_role (grant_role_internal s admin Role.Admin) admin Role.Admin =
          true :=
        decide_eq_true (grant_role_internal_mem_self s admin Role.Admin)
      rw [grant_role, if_pos hmem, if_pos hc]
    · rw [if_neg hb] at hok
      exact absurd hok (by simp)

/-- Witness for c9_grant_role_admin_only: Scenario D -- caller 4 with no role
is rejected with the authorization error; after Admin 1 grants Admin to 4,
the same grant_role call by 4 succeeds. -/
theorem c9_witness :
    grant_role ⟨[], 0, none, [(1, Role.Admin)], none, none, none⟩ [4] 4 5 Role.Pauser =
      .error .onlyAdmin ∧
    grant_role ⟨[], 0, none, [(4, Role.Admin), (1, Role.Admin)], none, none, none⟩
        [4] 4 5 Role.Pauser =
      .ok ⟨[], 0, none, [(5, Role.Pauser), (4, Role.Admin), (1, Role.Admin)], none,
        none, none⟩ := by
  have h := c9_grant_role_admin_only ⟨[], 0, none, [(1, Role.Admin)], none, none, none⟩
    [4] 4 5 Role.Pauser
  refine ⟨h.2.1 (by decide) (by decide), ?_⟩
  exact h.2.2.2 1 [1]
    ⟨[], 0, none, [(4, Role.Admin), (1, Role.Admin)], none, none, none⟩
    (by decide) rfl (by decide)

/-- C10: initialize has no once-only guard.  From any state, including one in
which it already ran, an initialize call authorized by the new admin
succeeds, grants all three roles to the new admin, overwrites the stored
legacy admin, resets the pause flag to false, and revokes no role previously
granted. -/
theorem c10_initialize_no_guard (s : State) (auths : List Nat) (new_admin : Nat)
    (hmem : new_admin ∈ auths) :
    initContract s auths new_admin =
      .ok { grant_role_internal (grant_role_internal
              (grant_role_internal s new_admin Role.Admin) new_admin Role.Pauser)
              new_admin Role.TreasuryManager with
            admin := some new_admin, isPaused := some false } ∧
    (∀ s1, initContract s auths new_admin = .ok s1 →
      has_role s1 new_admin Role.Admin = true ∧
      has_role s1 new_admin Role.Pauser = true ∧
      has_role s1 new_admin Role.TreasuryManager = true ∧
      s1.admin = some new_admin ∧ s1.isPaused = some false ∧
      (∀ p ∈ s.roles, p ∈ s1.roles)) := by
  constructor
  · rw [initContract, if_pos hmem]
  · intro s1 h1
    rw [initContract, if_pos hmem] at h1
    injection h1 with h1
    subst h1
    refine ⟨?_, ?_, ?_, rfl, rfl, ?_⟩
    · exact decide_eq_true (grant_role_internal_mem_mono _ _ _ _
        (grant_role_internal_mem_mono _ _ _ _
          (grant_role_internal_mem_self _ _ _)))
    · exact decide_eq_true (grant_role_internal_mem_mono _ _ _ _
        (grant_role_internal_mem_self _ _ _))
    · exact decide_eq_true (grant_role_internal_mem_self _ _ _)
    · intro p hp
      exact grant_role_internal_mem_mono _ _ _ _
        (grant_role_internal_mem_mono _ _ _ _
          (grant_role_internal_mem_mono _ _ _ _ hp))

/-- Witness for c10_initialize_no_guard: re-running initialize on an
already-initialized, paused state with admin 9 installs admin 4 with all
three roles, resets the pause flag, and keeps the grant held by 9. -/
theorem c10_witness :
    initContract ⟨[], 5, some 9, [(9, Role.Admin)], some 100, some 9, some true⟩ [4] 4 =
      .ok ⟨[], 5, some 4, [(4, Role.TreasuryManager), (4, Role.Pauser), (4, Role.Admin),
        (9, Role.Admin)], some 100, some 9, some false⟩ ∧
    has_role ⟨[], 5, some 4, [(4, Role.TreasuryManager), (4, Role.Pauser),
        (4, Role.Admin), (9, Role.Admin)], some 100, some 9, some false⟩ 4
      Role.Admin = true ∧
    (9, Role.Admin) ∈ (⟨[], 5, some 4, [(4, Role.TreasuryManager), (4, Role.Pauser),
        (4, Role.Admin), (9, Role.Admin)], some 100, some 9, some false⟩ : State).roles := by
  have h := c10_initialize_no_guard
    ⟨[], 5, some 9, [(9, Role.Admin)], some 100, some 9, some true⟩ [4] 4 (by decide)
  have h2 := h.2 ⟨[], 5, some 4, [(4, Role.TreasuryManager), (4, Role.Pauser),
    (4, Role.Admin), (9, Role.Admin)], some 100, some 9, some false⟩ (by exact h.1)
  exact ⟨by exact h.1, h2.1, h2.2.2.2.2.2 (9, Role.Admin) (by decide)⟩

end StellarStream
